import Mathlib

/-!
Verification of the AWS service-catalog query engine
(`sky/clouds/service_catalog/aws_catalog.py`).

The catalog is a table of rows (instance type, region, zone, vCPUs, memory,
optional accelerator name/count, on-demand price, optional spot price).  The
module normalizes raw zone identifiers to zone names by an inner join with a
mapping table, then answers feasibility / ranking / validation queries.

Helper functions living in `sky/clouds/service_catalog/common.py` are not part
of this tree; each such definition below carries a doc comment starting with
`Modelled from the spec:` and is written from the specification's wording.
Everything else is translated directly from `aws_catalog.py`.  The module-level
table `_df` becomes an explicit `catalog` parameter.
-/

namespace AwsCatalog

/-- One row of the AWS VM catalog (`aws/vms.csv` schema: InstanceType, Region,
AvailabilityZone, vCPUs, MemoryGiB, AcceleratorName, AcceleratorCount, Price,
SpotPrice).  Before `apply_az_mapping` runs, `availabilityZone` holds the raw
zone id; afterwards it holds the mapped zone name. -/
structure CatalogRow where
  instanceType : String
  region : String
  availabilityZone : String
  vcpus : ℚ
  memoryGiB : ℚ
  acceleratorName : Option String
  acceleratorCount : Option Nat
  price : ℚ
  spotPrice : Option ℚ
deriving DecidableEq, Repr

/-- One row of the zone-mapping table (`aws/az_mappings.csv` schema:
AvailabilityZone (raw id), AvailabilityZoneName). -/
structure ZoneMapping where
  availabilityZone : String
  availabilityZoneName : String
deriving DecidableEq, Repr

/-- Embeds `_apply_az_mapping`: an inner `merge` of the catalog with the
mapping table on the raw `AvailabilityZone` column, after which the raw id
column is dropped and `AvailabilityZoneName` is renamed to `AvailabilityZone`.
Rows whose raw zone id has no mapping entry are dropped by the inner join. -/
def apply_az_mapping (df : List CatalogRow) (az_mappings : List ZoneMapping) :
    List CatalogRow :=
  df.flatMap (fun row =>
    (az_mappings.filter (fun m => m.availabilityZone == row.availabilityZone)).map
      (fun m => { row with availabilityZone := m.availabilityZoneName }))

/-- An accelerator requirement / endowment: name and count
(`sky.resources.Accelerator`, whose source file is not in this tree; fields as
used by `aws_catalog.py`: `.name`, `.count`). -/
structure Accelerator where
  name : String
  count : Nat
deriving DecidableEq, Repr

/-- A caller's query (`sky.resources.ResourceFilter`, fields as used by
`aws_catalog.py`): optional instance type, accelerator, region and zone;
`use_spot` flag; passthrough fields `spot_recovery`, `disk_size`, `image_id`. -/
structure ResourceFilter where
  instance_type : Option String
  accelerator : Option Accelerator
  region : Option String
  zone : Option String
  use_spot : Bool
  spot_recovery : Option String
  disk_size : Nat
  image_id : Option String
deriving DecidableEq, Repr

/-- A concrete offer (`sky.resources.VMResources`, fields as constructed by
`get_feasible_resources`).  The `cloud` field is the provider tag. -/
structure VMResources where
  cloud : String
  region : String
  zone : String
  instance_type : String
  num_vcpus : ℚ
  cpu_memory : ℚ
  accelerator : Option Accelerator
  use_spot : Bool
  spot_recovery : Option String
  disk_size : Nat
  image_id : Option String
deriving DecidableEq, Repr

/-- Modelled from the spec: `common.filter_spot` (the file
`sky/clouds/service_catalog/common.py` is not in this tree).  Per the spec, a
row lacking a spot price is excluded when `use_spot` is true, and no row is
excluded when `use_spot` is false. -/
def filter_spot (df : List CatalogRow) (use_spot : Bool) : List CatalogRow :=
  if use_spot then df.filter (fun r => r.spotPrice.isSome) else df

/-- Conjunction of the per-column equality predicates applied by
`common.apply_filters` to one row: a filter value of `none` is skipped (acts as
true); a set value requires column equality.  For the optional accelerator
columns a set value requires the column to be present and equal (a missing
value never equals a set filter value). -/
def row_matches (instance_type acc_name : Option String) (acc_count : Option Nat)
    (region zone : Option String) (r : CatalogRow) : Bool :=
  (match instance_type with
   | none => true
   | some v => r.instanceType == v) &&
  (match acc_name with
   | none => true
   | some v => r.acceleratorName == some v) &&
  (match acc_count with
   | none => true
   | some v => r.acceleratorCount == some v) &&
  (match region with
   | none => true
   | some v => r.region == v) &&
  (match zone with
   | none => true
   | some v => r.availabilityZone == v)

/-- Modelled from the spec: `common.apply_filters` (the file
`sky/clouds/service_catalog/common.py` is not in this tree).  Per the spec it
applies a conjunctive set of optional equality filters over the columns
InstanceType, AcceleratorName, AcceleratorCount, Region, AvailabilityZone; an
unset filter is skipped, never excluding rows. -/
def apply_filters (df : List CatalogRow) (instance_type acc_name : Option String)
    (acc_count : Option Nat) (region zone : Option String) : List CatalogRow :=
  df.filter (row_matches instance_type acc_name acc_count region zone)

/-- Embeds the offer-construction loop body of `get_feasible_resources`: the
accelerator is `none` when `AcceleratorName` or `AcceleratorCount` is missing,
otherwise it carries both; `use_spot`, `spot_recovery`, `disk_size`, `image_id`
are copied from the filter, the remaining fields from the row. -/
def build_offer (resource_filter : ResourceFilter) (row : CatalogRow) : VMResources :=
  { cloud := "AWS"
    region := row.region
    zone := row.availabilityZone
    instance_type := row.instanceType
    num_vcpus := row.vcpus
    cpu_memory := row.memoryGiB
    accelerator :=
      match row.acceleratorName, row.acceleratorCount with
      | some n, some c => some { name := n, count := c }
      | _, _ => none
    use_spot := resource_filter.use_spot
    spot_recovery := resource_filter.spot_recovery
    disk_size := resource_filter.disk_size
    image_id := resource_filter.image_id }

/-- Embeds `get_feasible_resources`: spot filtering, then the optional equality
filters (accelerator name/count taken from the filter's accelerator when set),
then one `VMResources` offer per surviving row. -/
def get_feasible_resources (catalog : List CatalogRow)
    (resource_filter : ResourceFilter) : List VMResources :=
  (apply_filters (filter_spot catalog resource_filter.use_spot)
      resource_filter.instance_type
      (resource_filter.accelerator.map (fun a => a.name))
      (resource_filter.accelerator.map (fun a => a.count))
      resource_filter.region resource_filter.zone).map
    (build_offer resource_filter)

/-- The hourly price column selected by `use_spot`: the spot price (possibly
missing) for spot queries, the on-demand price otherwise. -/
def row_price (r : CatalogRow) (use_spot : Bool) : Option ℚ :=
  if use_spot then r.spotPrice else some r.price

/-- Ascending insertion by a rational key; used by the spec-modelled sorters. -/
def insert_by_key {α : Type} (key : α → ℚ) (x : α) : List α → List α
  | [] => [x]
  | y :: ys => if key x < key y then x :: y :: ys else y :: insert_by_key key x ys

/-- Ascending insertion sort by a rational key; used by the spec-modelled
sorters. -/
def sort_by_key {α : Type} (key : α → ℚ) : List α → List α
  | [] => []
  | x :: xs => insert_by_key key x (sort_by_key key xs)

/-- A region together with its zones (`sky.clouds.cloud.Region`, whose source
file is not in this tree; `aws_catalog.py` reads `.name`). -/
structure Region where
  name : String
  zones : List String
deriving DecidableEq, Repr

/-- The rows of a slice belonging to one region. -/
def region_rows (rows : List CatalogRow) (n : String) : List CatalogRow :=
  rows.filter (fun r => r.region == n)

/-- Minimum of a list of prices (0 for the empty list, which the callers never
hit for a region name actually occurring in the slice). -/
def min_price_of : List ℚ → ℚ
  | [] => 0
  | p :: ps => ps.foldl min p

/-- Cheapest available hourly price of a region inside a slice. -/
def region_min_price (rows : List CatalogRow) (use_spot : Bool) (n : String) : ℚ :=
  min_price_of ((region_rows rows n).filterMap (fun r => row_price r use_spot))

/-- Modelled from the spec: `common.get_region_zones` (the file
`sky/clouds/service_catalog/common.py` is not in this tree).  Per the spec it
produces the price-sorted region/zone candidate list for a catalog slice: rows
lacking a spot price are unavailable for spot queries, remaining rows are
grouped by region, and regions are ordered by ascending cheapest hourly
price. -/
def get_region_zones (df : List CatalogRow) (use_spot : Bool) : List Region :=
  sort_by_key
    (fun region => region_min_price (filter_spot df use_spot) use_spot region.name)
    ((((filter_spot df use_spot).map (fun r => r.region)).dedup).map
      (fun n =>
        { name := n
          zones := (region_rows (filter_spot df use_spot) n).map
            (fun r => r.availabilityZone) }))

/-- Embeds `get_region_zones_for_instance_type`: slice the catalog to the given
instance type, get the price-sorted region list, then partition it so that
regions whose name starts with `us-` come first (the source accumulates the two
groups in one pass over the list and concatenates them). -/
def get_region_zones_for_instance_type (catalog : List CatalogRow)
    (instance_type : String) (use_spot : Bool) : List Region :=
  ((get_region_zones (catalog.filter (fun r => r.instanceType == instance_type))
        use_spot).partition
      (fun region => region.name.startsWith "us-")).1 ++
  ((get_region_zones (catalog.filter (fun r => r.instanceType == instance_type))
        use_spot).partition
      (fun region => region.name.startsWith "us-")).2

/-- Prefix test on character lists, written out to keep the development
self-contained. -/
def list_starts_with : List Char → List Char → Bool
  | [], _ => true
  | _ :: _, [] => false
  | a :: as, b :: bs => a == b && list_starts_with as bs

/-- Substring test on character lists: does `needle` occur contiguously inside
`hay`? -/
def list_contains_sub (needle : List Char) : List Char → Bool
  | [] => list_starts_with needle []
  | b :: bs => list_starts_with needle (b :: bs) || list_contains_sub needle bs

/-- Case-insensitive approximate name match used by the fuzzy search: the
requested name occurs as a substring of the catalog name, ignoring case. -/
def fuzzy_name_match (requested candidate : String) : Bool :=
  list_contains_sub (requested.toList.map (fun c => c.toLower))
    (candidate.toList.map (fun c => c.toLower))

/-- Modelled from the spec: `common.get_instance_type_for_accelerator_impl`
(the file `sky/clouds/service_catalog/common.py` is not in this tree).  Per the
spec: first an exact match on accelerator name and count (optionally
constrained by region/zone) through the filter engine, with matched instance
types sorted ascending by hourly price; if no exact match exists, the matched
list is absent (`none`) and the second component holds approximate candidates:
the distinct accelerator names of the catalog that the requested name matches
case-insensitively. -/
def get_instance_type_for_accelerator (catalog : List CatalogRow)
    (acc_name : String) (acc_count : Nat) (use_spot : Bool)
    (region zone : Option String) : Option (List String) × List String :=
  match apply_filters (filter_spot catalog use_spot) none (some acc_name)
      (some acc_count) region zone with
  | [] =>
      (none,
        ((catalog.filterMap (fun r => r.acceleratorName)).dedup).filter
          (fun n => fuzzy_name_match acc_name n))
  | m :: ms =>
      (some
        (((sort_by_key (fun r => (row_price r use_spot).getD 0) (m :: ms)).map
            (fun r => r.instanceType)).dedup),
        [])

/-- Error taxonomy of the catalog module (`sky.exceptions`, not in this tree;
only the names are needed). -/
inductive CatalogError where
  | InvalidLocationError
  | NotFoundError
deriving DecidableEq, Repr

/-- Consistency of an optional (region, zone) pair with the catalog: each
given component must occur in the catalog, and when both are given the zone
must be a zone of that region. -/
def region_zone_consistent (catalog : List CatalogRow) :
    Option String → Option String → Prop
  | none, none => True
  | some r, none => ∃ row ∈ catalog, row.region = r
  | none, some z => ∃ row ∈ catalog, row.availabilityZone = z
  | some r, some z => ∃ row ∈ catalog, row.region = r ∧ row.availabilityZone = z

/-- Modelled from the spec: `common.validate_region_zone_impl` (the file
`sky/clouds/service_catalog/common.py` is not in this tree).  Per the spec it
returns the (region, zone) pair unchanged when it is consistent with the
catalog and fails with `InvalidLocationError` otherwise. -/
def validate_region_zone (catalog : List CatalogRow) (region zone : Option String) :
    Except CatalogError (Option String × Option String) :=
  match region, zone with
  | none, none => Except.ok (none, none)
  | some r, none =>
      if catalog.any (fun row => row.region == r) then Except.ok (some r, none)
      else Except.error CatalogError.InvalidLocationError
  | none, some z =>
      if catalog.any (fun row => row.availabilityZone == z) then
        Except.ok (none, some z)
      else Except.error CatalogError.InvalidLocationError
  | some r, some z =>
      if catalog.any (fun row => row.region == r && row.availabilityZone == z) then
        Except.ok (some r, some z)
      else Except.error CatalogError.InvalidLocationError

/-- Concrete fixture: an accelerator-free row with a spot price. -/
def exRowPlain : CatalogRow :=
  { instanceType := "m5.large", region := "us-east-1"
    availabilityZone := "us-east-1a", vcpus := 2, memoryGiB := 8
    acceleratorName := none, acceleratorCount := none
    price := 1, spotPrice := some (1 / 4) }

/-- Concrete fixture: a row with no spot price. -/
def exRowNoSpot : CatalogRow :=
  { instanceType := "m5.xlarge", region := "eu-west-1"
    availabilityZone := "eu-west-1a", vcpus := 4, memoryGiB := 16
    acceleratorName := none, acceleratorCount := none
    price := 2, spotPrice := none }

/-- Concrete fixture: a row carrying a "T4g" accelerator. -/
def exRowT4g : CatalogRow :=
  { instanceType := "g5g.xlarge", region := "us-east-1"
    availabilityZone := "us-east-1a", vcpus := 4, memoryGiB := 8
    acceleratorName := some "T4g", acceleratorCount := some 1
    price := 1, spotPrice := some (1 / 2) }

/-- Concrete fixture: a row offering 8 "V100" accelerators. -/
def exRowAcc8 : CatalogRow :=
  { instanceType := "p3.16xlarge", region := "us-east-1"
    availabilityZone := "us-east-1a", vcpus := 64, memoryGiB := 488
    acceleratorName := some "V100", acceleratorCount := some 8
    price := 24, spotPrice := some 8 }

/-- Concrete fixture: a row whose accelerator count column holds 0. -/
def exRowAcc0 : CatalogRow :=
  { instanceType := "z0.weird", region := "us-east-1"
    availabilityZone := "us-east-1a", vcpus := 4, memoryGiB := 16
    acceleratorName := some "A", acceleratorCount := some 0
    price := 1, spotPrice := some 1 }

/-- Concrete fixture: the all-wildcard on-demand filter. -/
def exFilterWildcard : ResourceFilter :=
  { instance_type := none, accelerator := none, region := none, zone := none
    use_spot := false, spot_recovery := none, disk_size := 256
    image_id := none }

/-- Concrete fixture: the all-wildcard spot filter. -/
def exFilterWildcardSpot : ResourceFilter :=
  { instance_type := none, accelerator := none, region := none, zone := none
    use_spot := true, spot_recovery := none, disk_size := 256
    image_id := none }

/-- Concrete fixture: a filter requesting 4 "V100" accelerators. -/
def exFilterAcc4 : ResourceFilter :=
  { instance_type := none, accelerator := some { name := "V100", count := 4 }
    region := none, zone := none, use_spot := false, spot_recovery := none
    disk_size := 256, image_id := none }

/-- Concrete fixture: a fully specified filter matching `exRowAcc8`. -/
def exFilterFull : ResourceFilter :=
  { instance_type := some "p3.16xlarge"
    accelerator := some { name := "V100", count := 8 }
    region := some "us-east-1", zone := some "us-east-1a", use_spot := true
    spot_recovery := some "FAILOVER", disk_size := 512
    image_id := some "ami-0123" }

end AwsCatalog

namespace AwsCatalog

/-- Membership in the spot-filtered slice implies membership in the catalog. -/
theorem mem_of_mem_filter_spot {catalog : List CatalogRow} {b : Bool}
    {r : CatalogRow} (h : r ∈ filter_spot catalog b) : r ∈ catalog := by
  cases b with
  | false => simpa [filter_spot] using h
  | true =>
      have h' : r ∈ catalog.filter (fun row => row.spotPrice.isSome) := by
        simpa [filter_spot] using h
      exact (List.mem_filter.mp h').1

/-- Unfolding of the conjunctive row predicate into per-column conditions. -/
theorem row_matches_true_iff (it an : Option String) (ac : Option Nat)
    (rg zn : Option String) (r : CatalogRow) :
    row_matches it an ac rg zn r = true ↔
      (∀ v, it = some v → r.instanceType = v) ∧
      (∀ v, an = some v → r.acceleratorName = some v) ∧
      (∀ v, ac = some v → r.acceleratorCount = some v) ∧
      (∀ v, rg = some v → r.region = v) ∧
      (∀ v, zn = some v → r.availabilityZone = v) := by
  cases it <;> cases an <;> cases ac <;> cases rg <;> cases zn <;>
    simp [row_matches, and_assoc]

/-- The all-wildcard predicate accepts every row. -/
theorem row_matches_none (r : CatalogRow) :
    row_matches none none none none none r = true := rfl

/-- C1: zone normalization is an exact inner join.  A row belongs to the
normalized catalog exactly when it arises from a source row together with a
mapping entry for that row's raw zone id, with the zone rewritten to the mapped
zone name.  Hence a source row whose raw zone id has no mapping entry
contributes nothing, and every normalized row's zone is a mapped zone name
(never null/blank). -/
theorem apply_az_mapping_mem_iff (df : List CatalogRow) (az : List ZoneMapping)
    (r : CatalogRow) :
    r ∈ apply_az_mapping df az ↔
      ∃ r0 ∈ df, ∃ m ∈ az, m.availabilityZone = r0.availabilityZone ∧
        r = { r0 with availabilityZone := m.availabilityZoneName } := by
  simp only [apply_az_mapping, List.mem_flatMap, List.mem_map, List.mem_filter,
    beq_iff_eq]
  constructor
  · rintro ⟨r0, hr0, m, ⟨hm, hkey⟩, rfl⟩
    exact ⟨r0, hr0, m, hm, hkey, rfl⟩
  · rintro ⟨r0, hr0, m, hm, hkey, rfl⟩
    exact ⟨r0, hr0, m, ⟨hm, hkey⟩, rfl⟩

/-- C2 counterexample: the claim fails as stated.  For the all-wildcard filter
with `useSpot = true` over a catalog whose single row has no spot price,
`get_feasible_resources` does not return one offer per catalog row. -/
theorem get_feasible_resources_wildcard_counterexample :
    (get_feasible_resources [exRowNoSpot] exFilterWildcardSpot).length
      ≠ ([exRowNoSpot] : List CatalogRow).length := by decide

/-- C2 (amended): for a `ResourceFilter` whose optional fields are all unset,
`get_feasible_resources` returns one offer per row of the spot-availability-
filtered catalog — in particular one offer per catalog row whenever
`use_spot = false` — each row re-expressed by the offer builder; no row is
excluded by an unset field. -/
theorem get_feasible_resources_wildcard (catalog : List CatalogRow)
    (f : ResourceFilter) (hit : f.instance_type = none)
    (hacc : f.accelerator = none) (hreg : f.region = none)
    (hzone : f.zone = none) :
    get_feasible_resources catalog f
        = (filter_spot catalog f.use_spot).map (build_offer f)
    ∧ (f.use_spot = false →
        get_feasible_resources catalog f = catalog.map (build_offer f)) := by
  have hfilters : ∀ df : List CatalogRow,
      apply_filters df none none none none none = df := by
    intro df
    unfold apply_filters
    exact List.filter_eq_self.mpr (fun a _ => row_matches_none a)
  constructor
  · simp only [get_feasible_resources, hit, hacc, hreg, hzone, Option.map_none']
    rw [hfilters]
  · intro hspot
    have h0 : filter_spot catalog f.use_spot = catalog := by
      rw [hspot]
      rfl
    simp only [get_feasible_resources, hit, hacc, hreg, hzone, Option.map_none', h0]
    rw [hfilters]

/-- C2 witness: the amended theorem applied to a one-row catalog and the
all-wildcard on-demand filter. -/
theorem get_feasible_resources_wildcard_witness :
    get_feasible_resources [exRowPlain] exFilterWildcard
        = (filter_spot [exRowPlain] exFilterWildcard.use_spot).map
            (build_offer exFilterWildcard)
    ∧ (exFilterWildcard.use_spot = false →
        get_feasible_resources [exRowPlain] exFilterWildcard
          = [exRowPlain].map (build_offer exFilterWildcard)) :=
  get_feasible_resources_wildcard [exRowPlain] exFilterWildcard rfl rfl rfl rfl

/-- C3: a catalog row with no spot price has no spot hourly price (nothing is
substituted for it), is excluded from `get_feasible_resources` when
`use_spot = true`, and is included for an otherwise-matching filter when
`use_spot = false`. -/
theorem spot_availability (catalog : List CatalogRow) (f : ResourceFilter)
    (row : CatalogRow) (hrow : row ∈ catalog) (hspot : row.spotPrice = none) :
    row_price row true = none
    ∧ (f.use_spot = true →
        row ∉ apply_filters (filter_spot catalog f.use_spot) f.instance_type
          (f.accelerator.map (fun a => a.name))
          (f.accelerator.map (fun a => a.count)) f.region f.zone)
    ∧ (f.use_spot = false →
        row_matches f.instance_type (f.accelerator.map (fun a => a.name))
          (f.accelerator.map (fun a => a.count)) f.region f.zone row = true →
        build_offer f row ∈ get_feasible_resources catalog f) := by
  refine ⟨by simp [row_price, hspot], ?_, ?_⟩
  · intro hs hmem
    unfold apply_filters at hmem
    have h1 : row ∈ filter_spot catalog f.use_spot := (List.mem_filter.mp hmem).1
    rw [hs] at h1
    simp [filter_spot, hspot] at h1
  · intro hs hm
    have h1 : row ∈ filter_spot catalog f.use_spot := by
      simp [filter_spot, hs, hrow]
    have h2 : row ∈ apply_filters (filter_spot catalog f.use_spot)
        f.instance_type (f.accelerator.map (fun a => a.name))
        (f.accelerator.map (fun a => a.count)) f.region f.zone := by
      unfold apply_filters
      exact List.mem_filter.mpr ⟨h1, hm⟩
    unfold get_feasible_resources
    exact List.mem_map_of_mem _ h2

/-- C3 witness: the spot-price-free row is dropped under the spot wildcard
filter and its offer is returned under the on-demand wildcard filter. -/
theorem spot_availability_witness :
    exRowNoSpot ∉ apply_filters (filter_spot [exRowNoSpot] true) none none none
        none none
    ∧ build_offer exFilterWildcard exRowNoSpot
        ∈ get_feasible_resources [exRowNoSpot] exFilterWildcard :=
  ⟨(spot_availability [exRowNoSpot] exFilterWildcardSpot exRowNoSpot
      (List.mem_singleton_self _) rfl).2.1 rfl,
   (spot_availability [exRowNoSpot] exFilterWildcard exRowNoSpot
      (List.mem_singleton_self _) rfl).2.2 rfl rfl⟩

/-- C4: the region prioritizer is a stable partition.  The ranked list is
exactly the price-sorted region list for the instance type's slice with the
regions whose name starts with "us-" first, each group keeping the relative
order it had in the price-sorted input; in particular the output is a
permutation of the price-sorted input. -/
theorem get_region_zones_for_instance_type_stable (catalog : List CatalogRow)
    (instance_type : String) (use_spot : Bool) :
    get_region_zones_for_instance_type catalog instance_type use_spot
      = (get_region_zones
            (catalog.filter (fun r => r.instanceType == instance_type))
            use_spot).filter (fun region => region.name.startsWith "us-")
        ++ (get_region_zones
            (catalog.filter (fun r => r.instanceType == instance_type))
            use_spot).filter (fun region => !(region.name.startsWith "us-"))
    ∧ (get_region_zones_for_instance_type catalog instance_type use_spot).Perm
        (get_region_zones
          (catalog.filter (fun r => r.instanceType == instance_type))
          use_spot) := by
  have hpart : get_region_zones_for_instance_type catalog instance_type use_spot
      = (get_region_zones
            (catalog.filter (fun r => r.instanceType == instance_type))
            use_spot).filter (fun region => region.name.startsWith "us-")
        ++ (get_region_zones
            (catalog.filter (fun r => r.instanceType == instance_type))
            use_spot).filter (fun region => !(region.name.startsWith "us-")) := by
    unfold get_region_zones_for_instance_type
    rw [List.partition_eq_filter_filter]
    rfl
  exact ⟨hpart, hpart ▸ List.filter_append_perm _ _⟩

/-- C10: an instance type occurring in no catalog row yields the empty ranked
region list — no error is raised at this entry point. -/
theorem get_region_zones_for_unknown_instance_type (catalog : List CatalogRow)
    (instance_type : String) (use_spot : Bool)
    (h : ∀ r ∈ catalog, r.instanceType ≠ instance_type) :
    get_region_zones_for_instance_type catalog instance_type use_spot = [] := by
  have hslice : catalog.filter (fun r => r.instanceType == instance_type) = [] := by
    rw [List.filter_eq_nil_iff]
    intro a ha
    simpa using h a ha
  unfold get_region_zones_for_instance_type
  rw [hslice]
  cases use_spot <;> rfl

/-- C10 witness: a name absent from a one-row catalog ranks to the empty
list. -/
theorem get_region_zones_for_unknown_instance_type_witness :
    get_region_zones_for_instance_type [exRowPlain] "q9.mystery" false = [] :=
  get_region_zones_for_unknown_instance_type [exRowPlain] "q9.mystery" false
    (by decide)

/-- C5: when no catalog row matches the accelerator request exactly, the
resolver returns an absent (`none`) matched-instance-type list together with
approximate candidates; every candidate is an accelerator name occurring in
the catalog (never an instance type), and any catalog accelerator name that
the requested name matches approximately — such as "T4g" for request "T4" —
appears among the candidates, so they are non-empty whenever such a near-name
exists. -/
theorem get_instance_type_for_accelerator_miss (catalog : List CatalogRow)
    (acc_name : String) (acc_count : Nat) (use_spot : Bool)
    (region zone : Option String)
    (hmiss : apply_filters (filter_spot catalog use_spot) none (some acc_name)
        (some acc_count) region zone = []) :
    (get_instance_type_for_accelerator catalog acc_name acc_count use_spot
        region zone).1 = none
    ∧ (∀ c ∈ (get_instance_type_for_accelerator catalog acc_name acc_count
          use_spot region zone).2,
        ∃ r ∈ catalog, r.acceleratorName = some c)
    ∧ (∀ near, (∃ r ∈ catalog, r.acceleratorName = some near) →
        fuzzy_name_match acc_name near = true →
        near ∈ (get_instance_type_for_accelerator catalog acc_name acc_count
          use_spot region zone).2) := by
  unfold get_instance_type_for_accelerator
  simp only [hmiss]
  refine ⟨trivial, ?_, ?_⟩
  · intro c hc
    have h1 := List.mem_filter.mp hc
    have h2 := List.mem_dedup.mp h1.1
    obtain ⟨r, hr, hr2⟩ := List.mem_filterMap.mp h2
    exact ⟨r, hr, hr2⟩
  · intro near hnear hfuzzy
    obtain ⟨r, hr, hr2⟩ := hnear
    exact List.mem_filter.mpr
      ⟨List.mem_dedup.mpr (List.mem_filterMap.mpr ⟨r, hr, hr2⟩), hfuzzy⟩

/-- C5 witness: requesting "T4" against a catalog holding only "T4g" misses
exactly, yields an absent matched list, and "T4g" is among the fuzzy
candidates. -/
theorem get_instance_type_for_accelerator_miss_witness :
    (get_instance_type_for_accelerator [exRowT4g] "T4" 1 false none none).1 = none
    ∧ "T4g" ∈ (get_instance_type_for_accelerator [exRowT4g] "T4" 1 false none
        none).2 := by
  have h := get_instance_type_for_accelerator_miss [exRowT4g] "T4" 1 false none
    none (by decide)
  exact ⟨h.1, h.2.2 "T4g" ⟨exRowT4g, List.mem_singleton_self _, rfl⟩ (by decide)⟩

/-- C6: accelerator count matching is exact equality.  With an accelerator set
in the filter, `get_feasible_resources` is the offer list of the filtered rows,
and any row whose accelerator count differs from the requested count is not
among the filtered rows, even if the name matches. -/
theorem accelerator_count_exact (catalog : List CatalogRow) (f : ResourceFilter)
    (a : Accelerator) (row : CatalogRow) (ha : f.accelerator = some a)
    (hcount : row.acceleratorCount ≠ some a.count) :
    get_feasible_resources catalog f
      = (apply_filters (filter_spot catalog f.use_spot) f.instance_type
          (some a.name) (some a.count) f.region f.zone).map (build_offer f)
    ∧ row ∉ apply_filters (filter_spot catalog f.use_spot) f.instance_type
        (some a.name) (some a.count) f.region f.zone := by
  constructor
  · unfold get_feasible_resources
    rw [ha]
    rfl
  · intro hmem
    unfold apply_filters at hmem
    have h2 := (List.mem_filter.mp hmem).2
    exact hcount (((row_matches_true_iff _ _ _ _ _ _).mp h2).2.2.1 a.count rfl)

/-- C6 witness: a row offering 8 "V100" accelerators is excluded for a filter
requesting 4. -/
theorem accelerator_count_exact_witness :
    get_feasible_resources [exRowAcc8] exFilterAcc4
      = (apply_filters (filter_spot [exRowAcc8] false) none (some "V100")
          (some 4) none none).map (build_offer exFilterAcc4)
    ∧ exRowAcc8 ∉ apply_filters (filter_spot [exRowAcc8] false) none
        (some "V100") (some 4) none none :=
  accelerator_count_exact [exRowAcc8] exFilterAcc4 { name := "V100", count := 4 }
    exRowAcc8 rfl (by decide)

/-- C7 counterexample: the claim fails as stated.  A matched row whose
accelerator count column holds 0 yields an offer carrying an accelerator with
count 0, refuting "count an integer ≥ 1". -/
theorem offer_construction_counterexample :
    ∃ o ∈ get_feasible_resources [exRowAcc0] exFilterWildcard,
      ∃ a ∈ o.accelerator.toList, a.count < 1 := by decide

/-- C7 (amended): every offer arises from a matched catalog row; its
accelerator field is null exactly when the row's accelerator name or count is
unset, and otherwise carries the row's name and count verbatim (so it is ≥ 1
whenever the row's count is); its `use_spot`, `spot_recovery`, `disk_size` and
`image_id` fields are copied verbatim from the filter, never from the row. -/
theorem offer_construction (catalog : List CatalogRow) (f : ResourceFilter)
    (o : VMResources) (ho : o ∈ get_feasible_resources catalog f) :
    ∃ row ∈ catalog, o = build_offer f row
      ∧ (o.accelerator = none ↔
          (row.acceleratorName = none ∨ row.acceleratorCount = none))
      ∧ (∀ n c, row.acceleratorName = some n → row.acceleratorCount = some c →
          o.accelerator = some { name := n, count := c })
      ∧ o.use_spot = f.use_spot ∧ o.spot_recovery = f.spot_recovery
      ∧ o.disk_size = f.disk_size ∧ o.image_id = f.image_id := by
  unfold get_feasible_resources at ho
  obtain ⟨row, hrow, rfl⟩ := List.mem_map.mp ho
  have hrow' : row ∈ List.filter
      (row_matches f.instance_type (f.accelerator.map (fun a => a.name))
        (f.accelerator.map (fun a => a.count)) f.region f.zone)
      (filter_spot catalog f.use_spot) := hrow
  refine ⟨row, mem_of_mem_filter_spot (List.mem_filter.mp hrow').1, rfl,
    ?_, ?_, rfl, rfl, rfl, rfl⟩
  · cases hn : row.acceleratorName <;> cases hc : row.acceleratorCount <;>
      simp [build_offer, hn, hc]
  · intro n c hn hc
    simp [build_offer, hn, hc]

/-- C7 witness: the amended theorem applied to a one-row catalog with an
8-accelerator row and the all-wildcard on-demand filter. -/
theorem offer_construction_witness :
    ∃ row ∈ [exRowAcc8],
      build_offer exFilterWildcard exRowAcc8 = build_offer exFilterWildcard row
      ∧ ((build_offer exFilterWildcard exRowAcc8).accelerator = none ↔
          (row.acceleratorName = none ∨ row.acceleratorCount = none))
      ∧ (∀ n c, row.acceleratorName = some n → row.acceleratorCount = some c →
          (build_offer exFilterWildcard exRowAcc8).accelerator
            = some { name := n, count := c })
      ∧ (build_offer exFilterWildcard exRowAcc8).use_spot
          = exFilterWildcard.use_spot
      ∧ (build_offer exFilterWildcard exRowAcc8).spot_recovery
          = exFilterWildcard.spot_recovery
      ∧ (build_offer exFilterWildcard exRowAcc8).disk_size
          = exFilterWildcard.disk_size
      ∧ (build_offer exFilterWildcard exRowAcc8).image_id
          = exFilterWildcard.image_id :=
  offer_construction [exRowAcc8] exFilterWildcard
    (build_offer exFilterWildcard exRowAcc8) (by decide)

/-- C8: region/zone validation fails with `InvalidLocationError` exactly when
the optional (region, zone) pair is inconsistent with the catalog, and returns
the pair unchanged when it is consistent. -/
theorem validate_region_zone_spec (catalog : List CatalogRow)
    (region zone : Option String) :
    (validate_region_zone catalog region zone
        = Except.error CatalogError.InvalidLocationError
      ↔ ¬ region_zone_consistent catalog region zone)
    ∧ (region_zone_consistent catalog region zone →
        validate_region_zone catalog region zone = Except.ok (region, zone)) := by
  have hiff : ∀ (b : Bool) (v : Option String × Option String) (P : Prop),
      (b = true ↔ P) →
      (((if b then Except.ok v
          else Except.error CatalogError.InvalidLocationError)
            = (Except.error CatalogError.InvalidLocationError :
                Except CatalogError (Option String × Option String))
          ↔ ¬ P)
        ∧ (P → (if b then Except.ok v
            else Except.error CatalogError.InvalidLocationError)
              = Except.ok v)) := by
    intro b v P hP
    cases b with
    | true => simp [hP.mp rfl]
    | false =>
        have hnp : ¬ P := fun hp => by simpa using hP.mpr hp
        simp [hnp]
  cases region with
  | none =>
      cases zone with
      | none => simp [validate_region_zone, region_zone_consistent]
      | some z =>
          exact hiff _ _ _
            (by simp [List.any_eq_true, beq_iff_eq, region_zone_consistent])
  | some r =>
      cases zone with
      | none =>
          exact hiff _ _ _
            (by simp [List.any_eq_true, beq_iff_eq, region_zone_consistent])
      | some z =>
          exact hiff _ _ _
            (by simp [List.any_eq_true, beq_iff_eq, Bool.and_eq_true,
              region_zone_consistent])

/-- C8 witness: "us-east-1z" is not a zone of "us-east-1" in the one-row
catalog, so validation fails with `InvalidLocationError`; the consistent pair
is returned unchanged. -/
theorem validate_region_zone_spec_witness :
    validate_region_zone [exRowPlain] (some "us-east-1") (some "us-east-1z")
        = Except.error CatalogError.InvalidLocationError
    ∧ validate_region_zone [exRowPlain] (some "us-east-1") (some "us-east-1a")
        = Except.ok (some "us-east-1", some "us-east-1a") :=
  ⟨(validate_region_zone_spec [exRowPlain] (some "us-east-1")
      (some "us-east-1z")).1.mpr
      (by simp [region_zone_consistent, exRowPlain]),
   (validate_region_zone_spec [exRowPlain] (some "us-east-1")
      (some "us-east-1a")).2
      ⟨exRowPlain, List.mem_singleton_self _, rfl, rfl⟩⟩

/-- C9: filter soundness.  Every offer returned by `get_feasible_resources`
agrees with each field the filter sets — instance type, accelerator (name and
count), region, zone — and its spot flag equals the filter's `use_spot`. -/
theorem get_feasible_resources_sound (catalog : List CatalogRow)
    (f : ResourceFilter) (o : VMResources)
    (ho : o ∈ get_feasible_resources catalog f) :
    (∀ v, f.instance_type = some v → o.instance_type = v)
    ∧ (∀ a, f.accelerator = some a → o.accelerator = some a)
    ∧ (∀ v, f.region = some v → o.region = v)
    ∧ (∀ v, f.zone = some v → o.zone = v)
    ∧ o.use_spot = f.use_spot := by
  unfold get_feasible_resources at ho
  obtain ⟨row, hrow, rfl⟩ := List.mem_map.mp ho
  have hrow' : row ∈ List.filter
      (row_matches f.instance_type (f.accelerator.map (fun a => a.name))
        (f.accelerator.map (fun a => a.count)) f.region f.zone)
      (filter_spot catalog f.use_spot) := hrow
  have hm := (row_matches_true_iff _ _ _ _ _ _).mp (List.mem_filter.mp hrow').2
  refine ⟨fun v hv => hm.1 v (by rw [hv]), ?_,
    fun v hv => hm.2.2.2.1 v (by rw [hv]),
    fun v hv => hm.2.2.2.2 v (by rw [hv]), rfl⟩
  intro a ha
  have hn : row.acceleratorName = some a.name := hm.2.1 a.name (by rw [ha]; rfl)
  have hc : row.acceleratorCount = some a.count :=
    hm.2.2.1 a.count (by rw [ha]; rfl)
  simp [build_offer, hn, hc]

/-- C9 witness: the fully specified filter over the matching one-row catalog
returns the offer agreeing with every requested field. -/
theorem get_feasible_resources_sound_witness :
    (build_offer exFilterFull exRowAcc8).instance_type = "p3.16xlarge"
    ∧ (build_offer exFilterFull exRowAcc8).accelerator
        = some { name := "V100", count := 8 }
    ∧ (build_offer exFilterFull exRowAcc8).region = "us-east-1"
    ∧ (build_offer exFilterFull exRowAcc8).zone = "us-east-1a"
    ∧ (build_offer exFilterFull exRowAcc8).use_spot = exFilterFull.use_spot := by
  have h := get_feasible_resources_sound [exRowAcc8] exFilterFull
    (build_offer exFilterFull exRowAcc8) (by decide)
  exact ⟨h.1 _ rfl, h.2.1 _ rfl, h.2.2.1 _ rfl, h.2.2.2.1 _ rfl, h.2.2.2.2⟩

end AwsCatalog
